import Mathlib

/-
Shallow embedding of the `nix::tree_cache` subsystem
(src/libexpr/tree-cache.{cc,hh}, the variant with the
FullAttrs/Placeholder-children machinery).

The SQLite table `Attributes (id, parent, name, type, value, context)`
with its `unique (parent, name)` constraint is modelled as a list of rows
plus an autoincrement counter.  Prepared statements become functions over
that state; a plain `insert` that violates the unique constraint raises
`SQLiteError`, which `doSQLite` turns into the sticky `failed` flag.
The symbol interner is modelled as the identity on strings
(`symbols.create`/resolve are inverse bijections onto the interned texts,
so nothing is lost by identifying a `Symbol` with its text).
-/

namespace TreeCache

/-- Interned symbol, modelled by its text (the interner is a bijection). -/
abbrev Symbol := String

/-- `Path` from the nix utility layer: a plain string. -/
abbrev Path := String

/-- Row identifier (`AttrId` in the source, `typedef uint64_t AttrId`).
Ids handed out by SQLite's autoincrement are small positive numbers, so
`Nat` is a faithful model. -/
abbrev AttrId := Nat

/-- Key of a node: `(parent row id, name)` (`AttrKey` in the source). -/
abbrev AttrKey := AttrId × Symbol

/-- The stored type tag (`enum AttrType` in tree-cache.hh). -/
inductive AttrType where
  | Placeholder
  | FullAttrs
  | String
  | Missing
  | Misc
  | Failed
  | Bool
deriving DecidableEq, Repr

/-- Numbering of the tags, as in tree-cache.hh (Placeholder=0 ... Bool=6). -/
def AttrType.toTag : AttrType → Nat
  | .Placeholder => 0
  | .FullAttrs => 1
  | .String => 2
  | .Missing => 3
  | .Misc => 4
  | .Failed => 5
  | .Bool => 6

/-- The in-memory tagged value (`AttrValue` variant in tree-cache.hh).
`fullAttrs` is the `std::vector<Symbol>` alternative, `str` is `string_t`
(text plus provenance/context list), and the four sentinels are the
empty structs `placeholder_t`, `missing_t`, `misc_t`, `failed_t`. -/
inductive AttrValue where
  | fullAttrs (names : List Symbol)
  | str (text : String) (context : List (Path × String))
  | placeholder
  | missing
  | misc
  | failed
  | bool (b : Bool)
deriving DecidableEq, Repr

/-- One row of the `Attributes` table.  `value` and `context` are nullable
text columns, hence `Option String`. -/
structure Row where
  id : AttrId
  parent : AttrId
  name : Symbol
  type : AttrType
  value : Option String
  context : Option String
deriving DecidableEq, Repr

/-- State of one open database: the stored rows (in insertion order), the
autoincrement counter (SQLite hands out ids starting from 1), and the
sticky `failed` flag of `AttrDb`. -/
structure DbState where
  rows : List Row
  nextId : AttrId
  failed : Bool
deriving DecidableEq, Repr

/-- A freshly created (empty) database, as after `AttrDb`'s constructor
runs the schema on a new file. -/
def initialDb : DbState := { rows := [], nextId := 1, failed := false }

/-- The query `select ... from Attributes where parent = ? and name = ?`:
first row whose key matches (the unique constraint makes it unique). -/
def findRowIn (rows : List Row) (parent : AttrId) (name : Symbol) : Option Row :=
  rows.find? (fun r => r.parent == parent && r.name == name)

/-- Modelled from the spec: `encodeContext` (context.hh, not part of the
observed sources) renders one provenance reference as
"<descriptor>:<locator>" (spec section 6, provenance text format). -/
def encodeContext (descriptor : Path) (locator : String) : String :=
  descriptor ++ ":" ++ locator

/-- Split a character list at the first occurrence of ':'. -/
def breakColon : List Char → List Char × List Char
  | [] => ([], [])
  | c :: rest =>
      if c = ':' then ([], rest)
      else
        let r := breakColon rest
        (c :: r.1, r.2)

/-- Modelled from the spec: `decodeContext` (context.hh, not part of the
observed sources) parses "<descriptor>:<locator>" back into the pair,
splitting at the delimiter (spec section 6). -/
def decodeContext (s : String) : Path × String :=
  let p := breakColon s.data
  (String.mk p.1, String.mk p.2)

/-- Split a character list on a separator character (keeping empty runs). -/
def splitOnChar (sep : Char) : List Char → List (List Char)
  | [] => [[]]
  | c :: rest =>
      let r := splitOnChar sep rest
      if c = sep then [] :: r
      else
        match r with
        | [] => [[c]]
        | t :: ts => (c :: t) :: ts

/-- Modelled from the spec: the generic nix `tokenizeString` helper
(util.hh, not part of the observed sources) splits a string on the
separator characters and drops empty tokens; `getAttr` calls it with the
single separator ";". -/
def tokenizeString (s : String) : List String :=
  ((splitOnChar ';' s.data).map (fun cs => String.mk cs)).filter
    (fun t => !(t == ""))

/-- The raw relational form of a value (`struct RawValue` in the header):
type tag, optional scalar text, provenance list. -/
structure RawValue where
  type : AttrType
  value : Option String
  context : List (Path × String)
deriving DecidableEq, Repr

/-- `RawValue::fromVariant`: encode an `AttrValue` into its raw row form.
Note the Bool case is translated exactly as written in the source:
`res.value = x ? "0" : "1";` — true becomes "0" and false becomes "1". -/
def RawValue.fromVariant : AttrValue → RawValue
  | .fullAttrs _ => { type := .FullAttrs, value := none, context := [] }
  | .placeholder => { type := .Placeholder, value := none, context := [] }
  | .missing => { type := .Missing, value := none, context := [] }
  | .misc => { type := .Misc, value := none, context := [] }
  | .failed => { type := .Failed, value := none, context := [] }
  | .str text ctx => { type := .String, value := some text, context := ctx }
  | .bool b => { type := .Bool, value := some (if b then "0" else "1"), context := [] }

/-- `RawValue::serializeContext`: append `encodeContext(elt.first,
elt.second)` plus a space for every element, then pop the trailing space
when the result is non-empty. -/
def RawValue.serializeContext (rv : RawValue) : String :=
  let res := rv.context.foldl
    (fun acc elt => acc ++ encodeContext elt.1 elt.2 ++ " ") ""
  if res = "" then res else String.mk res.data.dropLast

/-- SQLite's text-to-integer coercion on the digit literals this cache
stores ("0" / "1"): read the leading run of decimal digits. -/
def digitsToInt : List Char → Int → Int
  | [], acc => acc
  | c :: rest, acc =>
      if c.isDigit then digitsToInt rest (acc * 10 + (c.toNat - 48)) else acc

/-- `sqlite3_column_int` applied to a nullable text column: NULL reads as
0, text is coerced through its leading digits. -/
def columnInt (v : Option String) : Int :=
  match v with
  | none => 0
  | some s => digitsToInt s.data 0

/-- The decoding of the nullable `context` column performed by
`AttrDb::getAttr` for String rows: NULL yields no provenance, otherwise
tokenize on ";" and decode each token. -/
def decodeContextColumn (ctxt : Option String) : List (Path × String) :=
  match ctxt with
  | none => []
  | some t => (tokenizeString t).map decodeContext

/-- A plain `insert into Attributes(parent, name, type, value, context)`.
The `unique (parent, name)` constraint makes the statement fail
(`SQLiteError`) when a row with the same key already exists; on success
the row gets the next autoincrement id, returned by
`getLastInsertedRowId`. -/
def DbState.insertRow (s : DbState) (parent : AttrId) (name : Symbol)
    (type : AttrType) (value : Option String) (context : Option String) :
    Except Unit (AttrId × DbState) :=
  match findRowIn s.rows parent name with
  | some _ => .error ()
  | none => .ok (s.nextId,
      { rows := s.rows ++ [{ id := s.nextId, parent := parent, name := name,
                             type := type, value := value, context := context }],
        nextId := s.nextId + 1, failed := s.failed })

namespace AttrDb

/-- `AttrDb::doSQLite`: if the store already failed, return the sentinel
id 0 untouched; otherwise run the action, and on `SQLiteError` set the
sticky failed flag and return 0.  A failing action hands back the state
it had reached, because SQLite does not undo earlier statements of the
transaction when a later statement aborts. -/
def doSQLite (s : DbState) (f : DbState → Except DbState (AttrId × DbState)) :
    AttrId × DbState :=
  if s.failed then (0, s)
  else
    match f s with
    | .ok r => r
    | .error sErr => (0, { sErr with failed := true })

/-- `AttrDb::setLeaf`: store a non-attribute-set value as one row, built
by `RawValue::fromVariant`; the scalar is bound NULL exactly when the raw
value has none, while the context column is always bound (possibly the
empty string).  The source precedes this with
`assert(!std::holds_alternative<std::vector<Symbol>>(value))`; the only
caller routing `FullAttrs` values, `setValue`, dispatches them to
`setAttrs` instead, so the assert never fires on the paths modelled
here. -/
def setLeaf (s : DbState) (key : AttrKey) (value : AttrValue) :
    AttrId × DbState :=
  doSQLite s (fun st =>
    let rv := RawValue.fromVariant value
    match st.insertRow key.1 key.2 rv.type rv.value (some rv.serializeContext) with
    | .ok r => .ok r
    | .error _ => .error st)

/-- The loop in `AttrDb::setAttrs` inserting one Placeholder child row
per name under the freshly inserted FullAttrs row. -/
def insertPlaceholders (rowId : AttrId) :
    List Symbol → DbState → Except DbState DbState
  | [], st => .ok st
  | a :: rest, st =>
      match st.insertRow rowId a .Placeholder none none with
      | .ok r => insertPlaceholders rowId rest r.2
      | .error _ => .error st

/-- `AttrDb::setAttrs`: insert a FullAttrs row for the key (value and
context NULL), then one Placeholder row per name with the new row id as
parent; returns the FullAttrs row id. -/
def setAttrs (s : DbState) (key : AttrKey) (attrs : List Symbol) :
    AttrId × DbState :=
  doSQLite s (fun st =>
    match st.insertRow key.1 key.2 .FullAttrs none none with
    | .ok (rowId, st1) =>
        match insertPlaceholders rowId attrs st1 with
        | .ok st2 => .ok (rowId, st2)
        | .error stErr => .error stErr
    | .error _ => .error st)

/-- `AttrDb::setValue`: dispatch on the value's alternative —
attribute-set name lists go to `setAttrs`, everything else to
`setLeaf`. -/
def setValue (s : DbState) (key : AttrKey) (value : AttrValue) :
    AttrId × DbState :=
  match value with
  | .fullAttrs attrs => setAttrs s key attrs
  | v => setLeaf s key v

/-- `AttrDb::getId`: look the key up and return the stored row's id
(column 0 of the query); absent on no match.  Note it does not consult
the `failed` flag. -/
def getId (s : DbState) (key : AttrKey) : Option AttrId :=
  (findRowIn s.rows key.1 key.2).map (fun r => r.id)

/-- `AttrDb::setIfAbsent`: return the existing row id when the key is
already present (performing no write), otherwise `setValue`. -/
def setIfAbsent (s : DbState) (key : AttrKey) (value : AttrValue) :
    AttrId × DbState :=
  match getId s key with
  | some existingId => (existingId, s)
  | none => setValue s key value

/-- `AttrDb::getAttr`: look the key up and decode the row by its type
tag.  FullAttrs collects the names of all rows whose parent is the found
row id (one level, children not recursively loaded, each name re-interned
— the interner being the identity here); String decodes the scalar and
the context column (NULL context means no provenance); Bool compares the
column read as an integer against 0; the sentinels carry no payload.
Note it does not consult the `failed` flag. -/
def getAttr (s : DbState) (key : AttrKey) : Option (AttrId × AttrValue) :=
  match findRowIn s.rows key.1 key.2 with
  | none => none
  | some row =>
      match row.type with
      | .Placeholder => some (row.id, .placeholder)
      | .FullAttrs =>
          some (row.id, .fullAttrs
            ((s.rows.filter (fun r => r.parent == row.id)).map (fun r => r.name)))
      | .String =>
          some (row.id, .str (row.value.getD "") (decodeContextColumn row.context))
      | .Bool => some (row.id, .bool (columnInt row.value != 0))
      | .Missing => some (row.id, .missing)
      | .Misc => some (row.id, .misc)
      | .Failed => some (row.id, .failed)

end AttrDb

/-- Dereferencing the null `db` pointer of a Cache opened without
persistence: undefined behaviour in the C++, modelled as an explicit
error outcome. -/
inductive NullDeref where
  | nullDeref
deriving DecidableEq, Repr

/-- A `Cursor`: the owning Cache is left implicit (its db is passed to
each operation), the parent relation is the optional
`(parent cursor, edge name)` pair, and `cachedValue` is the local
`(row id, value)` memo. -/
inductive Cursor where
  | mk (parent : Option (Cursor × Symbol)) (cachedValue : AttrId × AttrValue)

/-- The parent relation of a cursor. -/
def Cursor.parent : Cursor → Option (Cursor × Symbol)
  | .mk p _ => p

/-- The local `(row id, value)` memo of a cursor. -/
def Cursor.cachedValue : Cursor → AttrId × AttrValue
  | .mk _ cv => cv

/-- The distinguished root symbol, `symbols.create("")`. -/
def rootSymbol : Symbol := ""

/-- `Cursor::getKey`: the root key is `(0, rootSymbol)`; a child's key is
the parent cursor's memoized row id paired with the edge name.  It only
reads the parent relation, never the cursor's own memo. -/
def getKeyOf (parent : Option (Cursor × Symbol)) : AttrKey :=
  match parent with
  | none => (0, rootSymbol)
  | some (p, label) => (p.cachedValue.1, label)

/-- The declare constructor `Cursor::Cursor(root, parent, value)`: it
dereferences `root->db` (null when the Cache has no store) and memoizes
`(setIfAbsent(key, value), value)` — the id that won paired with the
candidate value. -/
def Cursor.declare (db : Option DbState) (parent : Option (Cursor × Symbol))
    (value : AttrValue) : Except NullDeref (Cursor × Option DbState) :=
  match db with
  | none => .error .nullDeref
  | some s =>
      let r := AttrDb.setIfAbsent s (getKeyOf parent) value
      .ok (Cursor.mk parent (r.1, value), some r.2)

/-- The rehydrate constructor `Cursor::Cursor(root, parent, id, value)`:
wraps an already decoded store hit, no write. -/
def Cursor.rehydrate (parent : Option (Cursor × Symbol)) (id : AttrId)
    (value : AttrValue) : Cursor :=
  Cursor.mk parent (id, value)

/-- `Cursor::getCachedValue`: the memoized value, no I/O. -/
def Cursor.getCachedValue (c : Cursor) : AttrValue :=
  c.cachedValue.2

/-- `Cursor::setValue`: dereferences `root->db` and replaces the memo
with `(db->setValue(getKey(), v), v)`. -/
def Cursor.setValue (db : Option DbState) (c : Cursor) (v : AttrValue) :
    Except NullDeref (Cursor × Option DbState) :=
  match db with
  | none => .error .nullDeref
  | some s =>
      let r := AttrDb.setValue s (getKeyOf c.parent) v
      .ok (Cursor.mk c.parent (r.1, v), some r.2)

/-- `Cursor::addChild`: declare a child cursor under this one. -/
def Cursor.addChild (db : Option DbState) (c : Cursor) (name : Symbol)
    (v : AttrValue) : Except NullDeref (Cursor × Option DbState) :=
  Cursor.declare db (some (c, name)) v

/-- `Cursor::maybeGetAttr`: dereferences `root->db`, looks up
`(cachedValue.first, name)`, and on a hit rehydrates a child cursor; on
a miss returns null. -/
def Cursor.maybeGetAttr (db : Option DbState) (c : Cursor) (name : Symbol) :
    Except NullDeref (Option Cursor) :=
  match db with
  | none => .error .nullDeref
  | some s =>
      match AttrDb.getAttr s (c.cachedValue.1, name) with
      | some (id, v) => .ok (some (Cursor.rehydrate (some (c, name)) id v))
      | none => .ok none

/-- `Cursor::findAlongAttrPath`: walk `maybeGetAttr` along the names,
stopping at the first miss; the empty path returns the cursor itself. -/
def Cursor.findAlongAttrPath (db : Option DbState) (c : Cursor) :
    List Symbol → Except NullDeref (Option Cursor)
  | [] => .ok (some c)
  | name :: rest =>
      match Cursor.maybeGetAttr db c name with
      | .error e => .error e
      | .ok none => .ok none
      | .ok (some c1) => Cursor.findAlongAttrPath db c1 rest

/-- `Cursor::findAlongAttrPath` instrumented with the list of names it
actually looked up in the store, in order, to express which lookups are
performed. -/
def Cursor.findAlongAttrPathTrace (db : Option DbState) (c : Cursor) :
    List Symbol → Except NullDeref (Option Cursor × List Symbol)
  | [] => .ok (some c, [])
  | name :: rest =>
      match Cursor.maybeGetAttr db c name with
      | .error e => .error e
      | .ok none => .ok (none, [name])
      | .ok (some c1) =>
          match Cursor.findAlongAttrPathTrace db c1 rest with
          | .error e => .error e
          | .ok (res, tr) => .ok (res, name :: tr)

/-- `Cache::Cache(useCache, symbols)`: with a fingerprint the db member
is a fresh store (on a new file the schema yields the empty table), with
no fingerprint it is the null pointer. -/
def Cache.mkDb (useCache : Option String) : Option DbState :=
  useCache.map (fun _ => initialDb)

/-- `Cache::getRoot`: declare the virtual root (parent absent) as an
empty attribute set. -/
def Cache.getRoot (db : Option DbState) :
    Except NullDeref (Cursor × Option DbState) :=
  Cursor.declare db none (.fullAttrs [])

/-- Well-formedness of a database state: the autoincrement counter is
positive and strictly dominates every stored id and every stored parent
reference (parents are 0 or previously assigned ids).  Every state
reachable from `initialDb` through the operations above satisfies it. -/
def DbState.wf (s : DbState) : Prop :=
  0 < s.nextId ∧ ∀ r ∈ s.rows, r.id < s.nextId ∧ r.parent < s.nextId

/-- The candidate value can be inserted without an internal collision:
an attribute set must carry distinct names (each becomes a child row
under the same fresh parent). -/
def Insertable : AttrValue → Prop
  | .fullAttrs ns => ns.Nodup
  | _ => True

/-- The rows produced by the Placeholder-children loop of `setAttrs`,
given the parent row id and the first fresh autoincrement id. -/
def placeholderRows (rowId : AttrId) (start : AttrId) : List Symbol → List Row
  | [] => []
  | n :: rest =>
      { id := start, parent := rowId, name := n, type := .Placeholder,
        value := none, context := none } :: placeholderRows rowId (start + 1) rest

/-- The FullAttrs row that `setAttrs` inserts for the key itself. -/
def farRow (s : DbState) (k : AttrKey) : Row :=
  { id := s.nextId, parent := k.1, name := k.2, type := .FullAttrs,
    value := none, context := none }

/-- The row `setLeaf` inserts for a non-attribute-set value. -/
def leafRow (s : DbState) (k : AttrKey) (v : AttrValue) : Row :=
  { id := s.nextId, parent := k.1, name := k.2,
    type := (RawValue.fromVariant v).type,
    value := (RawValue.fromVariant v).value,
    context := some (RawValue.fromVariant v).serializeContext }

/-- One Placeholder child row. -/
def phRow (rowId : AttrId) (i : AttrId) (n : Symbol) : Row :=
  { id := i, parent := rowId, name := n, type := .Placeholder,
    value := none, context := none }

theorem findRowIn_append (l1 l2 : List Row) (p : AttrId) (n : Symbol) :
    findRowIn (l1 ++ l2) p n = (findRowIn l1 p n).or (findRowIn l2 p n) := by
  simp [findRowIn, List.find?_append]

theorem findRowIn_eq_none (l : List Row) (p : AttrId) (n : Symbol)
    (h : ∀ r ∈ l, ¬(r.parent = p ∧ r.name = n)) :
    findRowIn l p n = none := by
  rw [findRowIn, List.find?_eq_none]
  intro r hr
  simpa using h r hr

theorem findRowIn_eq_none_of_parent (l : List Row) (p : AttrId) (n : Symbol)
    (h : ∀ r ∈ l, r.parent ≠ p) :
    findRowIn l p n = none :=
  findRowIn_eq_none l p n (fun r hr hc => h r hr hc.1)

theorem findRowIn_cons_hit (r : Row) (l : List Row) :
    findRowIn (r :: l) r.parent r.name = some r := by
  simp [findRowIn]

theorem findRowIn_cons_miss (r : Row) (l : List Row) (p : AttrId) (n : Symbol)
    (h : ¬(r.parent = p ∧ r.name = n)) :
    findRowIn (r :: l) p n = findRowIn l p n := by
  rw [findRowIn, findRowIn]
  rw [List.find?_cons_of_neg]
  simpa using h

theorem placeholderRows_parent (rowId : AttrId) (ns : List Symbol) :
    ∀ start, ∀ r ∈ placeholderRows rowId start ns, r.parent = rowId := by
  induction ns with
  | nil => intro start r hr; simp [placeholderRows] at hr
  | cons a rest ih =>
      intro start r hr
      rw [placeholderRows] at hr
      rcases List.mem_cons.mp hr with h | h
      · subst h; rfl
      · exact ih (start + 1) r h

theorem placeholderRows_names (rowId : AttrId) (ns : List Symbol) :
    ∀ start, (placeholderRows rowId start ns).map (fun r => r.name) = ns := by
  induction ns with
  | nil => intro start; simp [placeholderRows]
  | cons a rest ih => intro start; simp [placeholderRows, ih]

theorem findRowIn_placeholderRows (rowId : AttrId) (ns : List Symbol)
    (n : Symbol) :
    ∀ start, n ∈ ns →
    ∃ i, findRowIn (placeholderRows rowId start ns) rowId n =
      some { id := i, parent := rowId, name := n, type := .Placeholder,
             value := none, context := none } := by
  induction ns with
  | nil => intro start h; simp at h
  | cons a rest ih =>
      intro start h
      by_cases ha : a = n
      · subst ha
        exact ⟨start, findRowIn_cons_hit _ _⟩
      · rcases List.mem_cons.mp h with h | h
        · exact absurd h.symm ha
        · obtain ⟨i, hi⟩ := ih (start + 1) h
          exact ⟨i, by
            rw [placeholderRows, findRowIn_cons_miss _ _ _ _ (by simp [ha]), hi]⟩

theorem placeholderRows_cons (rowId start : AttrId) (n : Symbol)
    (ns : List Symbol) :
    placeholderRows rowId start (n :: ns) =
      phRow rowId start n :: placeholderRows rowId (start + 1) ns := rfl

theorem insertPlaceholders_ok (rowId : AttrId) (ns : List Symbol) :
    ∀ st : DbState, ns.Nodup →
    (∀ n ∈ ns, findRowIn st.rows rowId n = none) →
    AttrDb.insertPlaceholders rowId ns st =
      .ok { rows := st.rows ++ placeholderRows rowId st.nextId ns,
            nextId := st.nextId + ns.length, failed := st.failed } := by
  induction ns with
  | nil => intro st hnd hfresh; simp [AttrDb.insertPlaceholders, placeholderRows]
  | cons a rest ih =>
      intro st hnd hfresh
      have ha : findRowIn st.rows rowId a = none := hfresh a (List.mem_cons_self a rest)
      have hfresh' : ∀ n ∈ rest,
          findRowIn (st.rows ++ [phRow rowId st.nextId a]) rowId n = none := by
        intro n hn
        rw [findRowIn_append, hfresh n (List.mem_cons_of_mem a hn), Option.none_or]
        have hne : a ≠ n := by
          intro hEq; subst hEq
          exact (List.nodup_cons.mp hnd).1 hn
        rw [findRowIn_cons_miss _ _ _ _ (by simp [phRow, hne])]
        simp [findRowIn]
      have hres := ih { rows := st.rows ++ [phRow rowId st.nextId a],
                        nextId := st.nextId + 1, failed := st.failed }
        (List.nodup_cons.mp hnd).2 hfresh'
      simp only [phRow] at hres
      simp only [AttrDb.insertPlaceholders, DbState.insertRow, ha, hres]
      simp [placeholderRows_cons, phRow, List.append_assoc]
      ring

theorem setLeaf_ok (s : DbState) (k : AttrKey) (v : AttrValue)
    (hf : s.failed = false) (habs : findRowIn s.rows k.1 k.2 = none) :
    AttrDb.setLeaf s k v =
      (s.nextId, { rows := s.rows ++ [leafRow s k v],
                   nextId := s.nextId + 1, failed := false }) := by
  rw [AttrDb.setLeaf, AttrDb.doSQLite]
  simp [hf, DbState.insertRow, habs, leafRow]

theorem setAttrs_ok (s : DbState) (k : AttrKey) (ns : List Symbol)
    (hf : s.failed = false) (habs : findRowIn s.rows k.1 k.2 = none)
    (hnd : ns.Nodup) (hk : k.1 ≠ s.nextId)
    (hpar : ∀ r ∈ s.rows, r.parent ≠ s.nextId) :
    AttrDb.setAttrs s k ns =
      (s.nextId,
       { rows := s.rows ++ farRow s k :: placeholderRows s.nextId (s.nextId + 1) ns,
         nextId := s.nextId + 1 + ns.length, failed := false }) := by
  have hfresh : ∀ n ∈ ns,
      findRowIn (s.rows ++ [farRow s k]) s.nextId n = none := by
    intro n hn
    rw [findRowIn_append, findRowIn_eq_none_of_parent s.rows s.nextId n hpar,
      Option.none_or]
    refine findRowIn_eq_none _ _ _ ?_
    intro r hr
    simp only [List.mem_singleton] at hr
    subst hr
    exact fun hc => hk hc.1
  have hres := insertPlaceholders_ok s.nextId ns
    { rows := s.rows ++ [farRow s k], nextId := s.nextId + 1, failed := false }
    hnd hfresh
  simp only [farRow] at hres
  simp only [AttrDb.setAttrs, AttrDb.doSQLite, hf, Bool.false_eq_true, if_false,
    DbState.insertRow, habs, hres]
  simp [farRow, List.append_assoc, hf]

theorem getAttr_of_findRowIn (s : DbState) (k : AttrKey) (row : Row)
    (h : findRowIn s.rows k.1 k.2 = some row) :
    ∃ v, AttrDb.getAttr s k = some (row.id, v) := by
  rw [AttrDb.getAttr, h]
  obtain ⟨i, p, nm, ty, val, ctx⟩ := row
  cases ty <;> exact ⟨_, rfl⟩

theorem setValue_found (s : DbState) (k : AttrKey) (v : AttrValue)
    (hf : s.failed = false) (habs : findRowIn s.rows k.1 k.2 = none)
    (hk : k.1 < s.nextId) (hpar : ∀ r ∈ s.rows, r.parent < s.nextId)
    (hins : Insertable v) :
    (AttrDb.setValue s k v).1 = s.nextId ∧
    ∃ row, findRowIn (AttrDb.setValue s k v).2.rows k.1 k.2 = some row ∧
      row.id = s.nextId := by
  cases v with
  | fullAttrs ns =>
      rw [AttrDb.setValue,
        setAttrs_ok s k ns hf habs hins (Nat.ne_of_lt hk)
          (fun r hr => Nat.ne_of_lt (hpar r hr))]
      refine ⟨rfl, farRow s k, ?_, rfl⟩
      rw [findRowIn_append, habs, Option.none_or]
      exact findRowIn_cons_hit _ _
  | str text ctx =>
      rw [show AttrDb.setValue s k (AttrValue.str text ctx)
          = AttrDb.setLeaf s k (AttrValue.str text ctx) from rfl,
        setLeaf_ok s k _ hf habs]
      refine ⟨rfl, leafRow s k (.str text ctx), ?_, rfl⟩
      rw [findRowIn_append, habs, Option.none_or]
      exact findRowIn_cons_hit _ _
  | placeholder =>
      rw [show AttrDb.setValue s k AttrValue.placeholder
          = AttrDb.setLeaf s k AttrValue.placeholder from rfl,
        setLeaf_ok s k _ hf habs]
      refine ⟨rfl, leafRow s k .placeholder, ?_, rfl⟩
      rw [findRowIn_append, habs, Option.none_or]
      exact findRowIn_cons_hit _ _
  | missing =>
      rw [show AttrDb.setValue s k AttrValue.missing
          = AttrDb.setLeaf s k AttrValue.missing from rfl,
        setLeaf_ok s k _ hf habs]
      refine ⟨rfl, leafRow s k .missing, ?_, rfl⟩
      rw [findRowIn_append, habs, Option.none_or]
      exact findRowIn_cons_hit _ _
  | misc =>
      rw [show AttrDb.setValue s k AttrValue.misc
          = AttrDb.setLeaf s k AttrValue.misc from rfl,
        setLeaf_ok s k _ hf habs]
      refine ⟨rfl, leafRow s k .misc, ?_, rfl⟩
      rw [findRowIn_append, habs, Option.none_or]
      exact findRowIn_cons_hit _ _
  | failed =>
      rw [show AttrDb.setValue s k AttrValue.failed
          = AttrDb.setLeaf s k AttrValue.failed from rfl,
        setLeaf_ok s k _ hf habs]
      refine ⟨rfl, leafRow s k .failed, ?_, rfl⟩
      rw [findRowIn_append, habs, Option.none_or]
      exact findRowIn_cons_hit _ _
  | bool b =>
      rw [show AttrDb.setValue s k (AttrValue.bool b)
          = AttrDb.setLeaf s k (AttrValue.bool b) from rfl,
        setLeaf_ok s k _ hf habs]
      refine ⟨rfl, leafRow s k (.bool b), ?_, rfl⟩
      rw [findRowIn_append, habs, Option.none_or]
      exact findRowIn_cons_hit _ _

theorem getId_eq_none_iff (s : DbState) (k : AttrKey) :
    AttrDb.getId s k = none ↔ findRowIn s.rows k.1 k.2 = none := by
  rw [AttrDb.getId]
  cases findRowIn s.rows k.1 k.2 <;> simp

/-- C4: on a key not yet present in a healthy store, `setIfAbsent` with a
first candidate inserts and returns the fresh row id; a second
`setIfAbsent` on the same key with any other candidate returns the very
same id, leaves the state untouched (no write), and a read of the key is
therefore exactly what the first call established, independent of the
second candidate (first-writer-wins).  The hypotheses ask for a
well-formed, non-failed store, an absent key addressed under an already
assigned parent id, and a first candidate whose name set (if it is an
attribute set) is duplicate-free, so that the first insert succeeds. -/
theorem C4_setIfAbsent_first_writer_wins (s : DbState) (k : AttrKey)
    (v1 v2 : AttrValue) (hwf : s.wf) (hf : s.failed = false)
    (habs : AttrDb.getId s k = none) (hk : k.1 < s.nextId)
    (hins : Insertable v1) :
    (AttrDb.setIfAbsent s k v1).1 ≠ 0 ∧
    (AttrDb.setIfAbsent (AttrDb.setIfAbsent s k v1).2 k v2).1
      = (AttrDb.setIfAbsent s k v1).1 ∧
    (AttrDb.setIfAbsent (AttrDb.setIfAbsent s k v1).2 k v2).2
      = (AttrDb.setIfAbsent s k v1).2 ∧
    AttrDb.getAttr (AttrDb.setIfAbsent (AttrDb.setIfAbsent s k v1).2 k v2).2 k
      = AttrDb.getAttr (AttrDb.setIfAbsent s k v1).2 k ∧
    (AttrDb.getAttr (AttrDb.setIfAbsent s k v1).2 k).isSome = true := by
  have habs' : findRowIn s.rows k.1 k.2 = none := (getId_eq_none_iff s k).mp habs
  have h1 : AttrDb.setIfAbsent s k v1 = AttrDb.setValue s k v1 := by
    rw [AttrDb.setIfAbsent, habs]
  obtain ⟨hid, row, hrow, hrid⟩ :=
    setValue_found s k v1 hf habs' hk (fun r hr => (hwf.2 r hr).2) hins
  have hgid : AttrDb.getId (AttrDb.setValue s k v1).2 k = some s.nextId := by
    rw [AttrDb.getId, hrow]
    simp [hrid]
  have h2 : AttrDb.setIfAbsent (AttrDb.setValue s k v1).2 k v2
      = (s.nextId, (AttrDb.setValue s k v1).2) := by
    rw [AttrDb.setIfAbsent, hgid]
  obtain ⟨w, hw⟩ := getAttr_of_findRowIn (AttrDb.setValue s k v1).2 k row hrow
  refine ⟨?_, ?_, ?_, ?_, ?_⟩
  · rw [h1, hid]
    exact Nat.pos_iff_ne_zero.mp hwf.1
  · rw [h1, h2, hid]
  · rw [h1, h2]
  · rw [h1, h2]
  · rw [h1, hw]
    rfl

/-- C5 (amended): when the key derived from the parent relation already
has a stored row — whatever decoded value `w` it holds — the declare
constructor performs no write and memoizes the existing row id paired
with the *candidate* value `v`, not with the stored winner `w`. -/
theorem C5_declare_memo_candidate (s : DbState) (p : Option (Cursor × Symbol))
    (v : AttrValue) (i : AttrId) (w : AttrValue)
    (h : AttrDb.getAttr s (getKeyOf p) = some (i, w)) :
    Cursor.declare (some s) p v = .ok (Cursor.mk p (i, v), some s) := by
  have hrow : ∃ row, findRowIn s.rows (getKeyOf p).1 (getKeyOf p).2 = some row ∧
      row.id = i := by
    rw [AttrDb.getAttr] at h
    cases hfind : findRowIn s.rows (getKeyOf p).1 (getKeyOf p).2 with
    | none => rw [hfind] at h; exact absurd h (by simp)
    | some row =>
        rw [hfind] at h
        refine ⟨row, rfl, ?_⟩
        obtain ⟨ri, rp, rn, rt, rv, rc⟩ := row
        cases rt <;> simp_all
  obtain ⟨row, hfind, hid⟩ := hrow
  rw [Cursor.declare, AttrDb.setIfAbsent, AttrDb.getId, hfind]
  simp [hid]

/-- C6 (amended): once the sticky failed flag is set, every write
(`setValue`, `setLeaf`, `setAttrs`) is a no-op returning the sentinel id
0 and leaving the state — hence the flag — unchanged, without retrying;
the reads `getAttr` and `getId`, however, never consult the flag: they
behave exactly as on the same rows with the flag cleared, so they still
return stored rows rather than unconditional misses. -/
theorem C6_sticky_failure_writes_noop (s : DbState) (k : AttrKey)
    (v : AttrValue) (ns : List Symbol) (h : s.failed = true) :
    AttrDb.setValue s k v = (0, s) ∧
    AttrDb.setLeaf s k v = (0, s) ∧
    AttrDb.setAttrs s k ns = (0, s) ∧
    AttrDb.getAttr s k = AttrDb.getAttr { s with failed := false } k ∧
    AttrDb.getId s k = AttrDb.getId { s with failed := false } k := by
  have hleaf : AttrDb.setLeaf s k v = (0, s) := by
    rw [AttrDb.setLeaf, AttrDb.doSQLite]
    simp [h]
  have hattrs : ∀ ms : List Symbol, AttrDb.setAttrs s k ms = (0, s) := by
    intro ms
    rw [AttrDb.setAttrs, AttrDb.doSQLite]
    simp [h]
  refine ⟨?_, hleaf, hattrs ns, rfl, rfl⟩
  cases v with
  | fullAttrs ms => exact hattrs ms
  | str text ctx => exact hleaf
  | placeholder => exact hleaf
  | missing => exact hleaf
  | misc => exact hleaf
  | failed => exact hleaf
  | bool b => exact hleaf

/-- C7: declaring `FullAttrs ns` (distinct names) at an absent key of a
healthy well-formed store returns the fresh row id, a read of the key
itself then decodes to `FullAttrs` over exactly the declared names (here
even in the same order, so in particular as a set), and a read of
`(new row id, n)` for each declared name `n` yields a `Placeholder`. -/
theorem C7_setAttrs_contract (s : DbState) (k : AttrKey) (ns : List Symbol)
    (hwf : s.wf) (hf : s.failed = false)
    (habs : findRowIn s.rows k.1 k.2 = none) (hk : k.1 < s.nextId)
    (hnd : ns.Nodup) :
    (AttrDb.setAttrs s k ns).1 = s.nextId ∧
    AttrDb.getAttr (AttrDb.setAttrs s k ns).2 k
      = some (s.nextId, .fullAttrs ns) ∧
    ∀ n ∈ ns, ∃ i, AttrDb.getAttr (AttrDb.setAttrs s k ns).2 (s.nextId, n)
      = some (i, .placeholder) := by
  have hkne : k.1 ≠ s.nextId := Nat.ne_of_lt hk
  have hpar : ∀ r ∈ s.rows, r.parent ≠ s.nextId :=
    fun r hr => Nat.ne_of_lt (hwf.2 r hr).2
  rw [setAttrs_ok s k ns hf habs hnd hkne hpar]
  have hfind : findRowIn
      (s.rows ++ farRow s k :: placeholderRows s.nextId (s.nextId + 1) ns)
      k.1 k.2 = some (farRow s k) := by
    rw [findRowIn_append, habs, Option.none_or]
    exact findRowIn_cons_hit _ _
  refine ⟨rfl, ?_, ?_⟩
  · rw [AttrDb.getAttr]
    simp only [hfind]
    have hchild :
        ((s.rows ++ farRow s k :: placeholderRows s.nextId (s.nextId + 1) ns).filter
          (fun r => r.parent == (farRow s k).id)).map (fun r => r.name) = ns := by
      rw [List.filter_append]
      have h1 : s.rows.filter (fun r => r.parent == (farRow s k).id) = [] := by
        rw [List.filter_eq_nil_iff]
        intro r hr
        simpa [farRow] using hpar r hr
      have h2 : (farRow s k :: placeholderRows s.nextId (s.nextId + 1) ns).filter
          (fun r => r.parent == (farRow s k).id)
          = placeholderRows s.nextId (s.nextId + 1) ns := by
        rw [List.filter_cons_of_neg (by simpa [farRow] using hkne)]
        rw [List.filter_eq_self.mpr]
        intro r hr
        simpa [farRow] using placeholderRows_parent s.nextId ns (s.nextId + 1) r hr
      rw [h1, h2, List.nil_append]
      exact placeholderRows_names s.nextId ns (s.nextId + 1)
    rw [hchild]
    simp [farRow]
  · intro n hn
    obtain ⟨i, hi⟩ := findRowIn_placeholderRows s.nextId ns n (s.nextId + 1) hn
    refine ⟨i, ?_⟩
    rw [AttrDb.getAttr]
    have hfindn : findRowIn
        (s.rows ++ farRow s k :: placeholderRows s.nextId (s.nextId + 1) ns)
        s.nextId n
        = some { id := i, parent := s.nextId, name := n, type := .Placeholder,
                 value := none, context := none } := by
      rw [findRowIn_append, findRowIn_eq_none_of_parent s.rows s.nextId n hpar,
        Option.none_or,
        findRowIn_cons_miss _ _ _ _ (fun hc => hkne hc.1),
        hi]
    simp only [hfindn]

/-- C9: a name never written under a cursor's row id makes
`maybeGetAttr` return absent; and `findAlongAttrPath [x, y, z]`, when
`x` resolves but `y` is absent under it, returns absent having looked up
only `x` and `y` — the instrumented trace is `[x, y]`, so no lookup for
`z` is ever performed. -/
theorem C9_missing_path_stops (s : DbState) (c : Cursor) (name x y z : Symbol)
    (i1 : AttrId) (v1 : AttrValue)
    (h0 : findRowIn s.rows c.cachedValue.1 name = none)
    (hx : AttrDb.getAttr s (c.cachedValue.1, x) = some (i1, v1))
    (hy : findRowIn s.rows i1 y = none) :
    Cursor.maybeGetAttr (some s) c name = .ok none ∧
    Cursor.findAlongAttrPath (some s) c [x, y, z] = .ok none ∧
    Cursor.findAlongAttrPathTrace (some s) c [x, y, z] = .ok (none, [x, y]) := by
  have hgy : AttrDb.getAttr s (i1, y) = none := by
    rw [AttrDb.getAttr]
    simp only [hy]
  obtain ⟨cp, ccv⟩ := c
  simp only [Cursor.cachedValue] at h0 hx
  have hgnone : AttrDb.getAttr s (ccv.1, name) = none := by
    rw [AttrDb.getAttr, h0]
  refine ⟨?_, ?_, ?_⟩
  · simp only [Cursor.maybeGetAttr, Cursor.cachedValue, hgnone]
  · simp only [Cursor.findAlongAttrPath, Cursor.maybeGetAttr, Cursor.rehydrate,
      Cursor.cachedValue, hx, hgy]
  · simp only [Cursor.findAlongAttrPathTrace, Cursor.maybeGetAttr, Cursor.rehydrate,
      Cursor.cachedValue, hx, hgy]

/-- C1: the claim asserts that writing any value shape and reading it
back yields a structurally equal value, with the Bool encode storing a
literal distinguishing true from false and the decode recovering the same
boolean.  The code stores "0" for true and "1" for false and decodes via
an integer comparison against 0, so a stored `Bool true` reads back as
`Bool false` and vice versa: the round-trip flips every boolean. -/
theorem C1_bool_roundtrip_flips :
    AttrDb.getAttr (AttrDb.setValue initialDb (0, "") (.bool true)).2 (0, "")
      = some (1, .bool false) ∧
    AttrDb.getAttr (AttrDb.setValue initialDb (0, "") (.bool false)).2 (0, "")
      = some (1, .bool true) := by
  decide

/-- C2: the claim asserts that decoding a serialized provenance list
recovers the original list, the entries being joined with one delimiter
character which decoding splits on.  The code joins entries with a space
but `getAttr` tokenizes the stored text on ";", so the two-element list
[("a","b"), ("c","d")] (delimiter-free descriptors and locators) reads
back as the single entry ("a", "b c:d"); the empty list does serialize
to the empty string. -/
theorem C2_context_delimiter_mismatch :
    AttrDb.getAttr
        (AttrDb.setValue initialDb (0, "") (.str "s" [("a", "b"), ("c", "d")])).2
        (0, "")
      = some (1, .str "s" [("a", "b c:d")]) ∧
    RawValue.serializeContext
        (RawValue.fromVariant (.str "s" [("a", "b"), ("c", "d")])) = "a:b c:d" ∧
    RawValue.serializeContext (RawValue.fromVariant (.str "s" [])) = "" := by
  decide

/-- C3: the claim asserts that `Cursor::setValue` on a node currently
stored as a Placeholder overwrites the stored value, memoizes the new id,
makes a subsequent read return the new value, and does not fail the
store.  The code issues a plain `insert` against the
`unique (parent, name)` constraint, so on a node whose row already
exists the insert raises, the sticky failed flag is set, the memo gets
the sentinel id 0, and a read still returns the old Placeholder: here the
root is declared as FullAttrs with child "a" (rows 1 and 2), and writing
`Bool false` through the child's cursor poisons the store instead of
overwriting row 2. -/
theorem C3_setValue_poisons_store :
    Cursor.setValue (some (AttrDb.setAttrs initialDb (0, "") ["a"]).2)
        (Cursor.mk (some (Cursor.mk none (1, .fullAttrs ["a"]), "a"))
          (2, .placeholder))
        (.bool false)
      = .ok (Cursor.mk (some (Cursor.mk none (1, .fullAttrs ["a"]), "a"))
               (0, .bool false),
             some { rows := [
                      { id := 1, parent := 0, name := "", type := .FullAttrs,
                        value := none, context := none },
                      { id := 2, parent := 1, name := "a", type := .Placeholder,
                        value := none, context := none }],
                    nextId := 3, failed := true }) ∧
    AttrDb.getAttr
        { rows := [
            { id := 1, parent := 0, name := "", type := .FullAttrs,
              value := none, context := none },
            { id := 2, parent := 1, name := "a", type := .Placeholder,
              value := none, context := none }],
          nextId := 3, failed := true }
        (1, "a")
      = some (2, .placeholder) := by
  exact ⟨rfl, by decide⟩

/-- C5 counterexample: the claim asserts the declare constructor's memo
holds the value that actually won — the previously stored value when the
key already existed.  Here the key (0, "") already holds `Misc` (row 1),
yet declaring with candidate `Missing` memoizes `(1, Missing)`: the
candidate, not the stored winner. -/
theorem C5_memo_holds_candidate_cex :
    AttrDb.getAttr (AttrDb.setValue initialDb (0, "") .misc).2 (0, "")
      = some (1, .misc) ∧
    Cursor.declare (some (AttrDb.setValue initialDb (0, "") .misc).2) none .missing
      = .ok (Cursor.mk none (1, .missing),
             some (AttrDb.setValue initialDb (0, "") .misc).2) := by
  exact ⟨by decide, rfl⟩

/-- C6 counterexample: the claim asserts that after a storage error every
subsequent read behaves as an unconditional miss.  Here row 1 holds
`Misc`; a second insert at the same key fails and sets the sticky failed
flag, yet `getAttr` and `getId` still return the stored row — neither
consults the failed flag. -/
theorem C6_reads_after_failure_hit :
    (AttrDb.setValue (AttrDb.setValue initialDb (0, "") .misc).2 (0, "") .failed).2.failed
      = true ∧
    AttrDb.getAttr
        (AttrDb.setValue (AttrDb.setValue initialDb (0, "") .misc).2 (0, "") .failed).2
        (0, "")
      = some (1, .misc) ∧
    AttrDb.getId
        (AttrDb.setValue (AttrDb.setValue initialDb (0, "") .misc).2 (0, "") .failed).2
        (0, "")
      = some 1 := by
  decide

/-- C8: the claim asserts that a Cache opened with no fingerprint (db
absent) still supports getRoot, addChild, setValue and getCachedValue
in memory without failing the caller.  The constructor indeed leaves the
db null, but every one of these store-touching operations dereferences
`root->db` unguarded, so the very first `getRoot()` dereferences the
null pointer instead of degrading. -/
theorem C8_null_db_deref :
    Cache.mkDb none = none ∧
    Cache.getRoot (Cache.mkDb none) = .error .nullDeref ∧
    ∀ (c : Cursor) (nm : Symbol) (v : AttrValue),
      Cursor.addChild none c nm v = .error .nullDeref ∧
      Cursor.setValue none c v = .error .nullDeref ∧
      Cursor.maybeGetAttr none c nm = .error .nullDeref := by
  exact ⟨rfl, rfl, fun c nm v => ⟨rfl, rfl, rfl⟩⟩

/-- C10: `findAlongAttrPath` applied to the empty path returns the very
cursor it started from (never absent) and performs no store lookup (the
instrumented trace is empty); this holds for any cursor and any db,
even the null one, since the loop body never runs. -/
theorem C10_empty_path_identity :
    ∀ (db : Option DbState) (c : Cursor),
      Cursor.findAlongAttrPath db c [] = .ok (some c) ∧
      Cursor.findAlongAttrPathTrace db c [] = .ok (some c, []) := by
  exact fun db c => ⟨rfl, rfl⟩

/-- Witness for C4 at a concrete input: empty store, key (0, ""), first
candidate `Missing`, second candidate `Failed`. -/
theorem C4_witness :
    (AttrDb.setIfAbsent initialDb (0, "") .missing).1 ≠ 0 ∧
    (AttrDb.setIfAbsent (AttrDb.setIfAbsent initialDb (0, "") .missing).2
        (0, "") .failed).1
      = (AttrDb.setIfAbsent initialDb (0, "") .missing).1 ∧
    (AttrDb.setIfAbsent (AttrDb.setIfAbsent initialDb (0, "") .missing).2
        (0, "") .failed).2
      = (AttrDb.setIfAbsent initialDb (0, "") .missing).2 ∧
    AttrDb.getAttr
        (AttrDb.setIfAbsent (AttrDb.setIfAbsent initialDb (0, "") .missing).2
          (0, "") .failed).2 (0, "")
      = AttrDb.getAttr (AttrDb.setIfAbsent initialDb (0, "") .missing).2 (0, "") ∧
    (AttrDb.getAttr (AttrDb.setIfAbsent initialDb (0, "") .missing).2 (0, "")).isSome
      = true :=
  C4_setIfAbsent_first_writer_wins initialDb (0, "") .missing .failed
    ⟨Nat.one_pos, by simp [initialDb]⟩ rfl (by decide) (by decide) trivial

/-- Witness for the amended C5 at a concrete input: the key (0, "")
already stores `Misc` as row 1; declaring with candidate `Failed`
memoizes `(1, Failed)` and performs no write. -/
theorem C5_witness :
    Cursor.declare (some (AttrDb.setValue initialDb (0, "") .misc).2) none .failed
      = .ok (Cursor.mk none (1, .failed),
             some (AttrDb.setValue initialDb (0, "") .misc).2) :=
  C5_declare_memo_candidate (AttrDb.setValue initialDb (0, "") .misc).2
    none .failed 1 .misc (by decide)

/-- Witness for the amended C6 at a concrete input: an empty store with
the failed flag set. -/
theorem C6_witness :
    AttrDb.setValue { rows := [], nextId := 1, failed := true } (0, "") .misc
      = (0, { rows := [], nextId := 1, failed := true }) ∧
    AttrDb.setLeaf { rows := [], nextId := 1, failed := true } (0, "") .misc
      = (0, { rows := [], nextId := 1, failed := true }) ∧
    AttrDb.setAttrs { rows := [], nextId := 1, failed := true } (0, "") ["a"]
      = (0, { rows := [], nextId := 1, failed := true }) ∧
    AttrDb.getAttr { rows := [], nextId := 1, failed := true } (0, "")
      = AttrDb.getAttr { rows := [], nextId := 1, failed := false } (0, "") ∧
    AttrDb.getId { rows := [], nextId := 1, failed := true } (0, "")
      = AttrDb.getId { rows := [], nextId := 1, failed := false } (0, "") :=
  C6_sticky_failure_writes_noop { rows := [], nextId := 1, failed := true }
    (0, "") .misc ["a"] rfl

/-- Witness for C7 at a concrete input: declaring FullAttrs over the
distinct names a, b, c at the root key of the empty store. -/
theorem C7_witness :
    (AttrDb.setAttrs initialDb (0, "") ["a", "b", "c"]).1 = 1 ∧
    AttrDb.getAttr (AttrDb.setAttrs initialDb (0, "") ["a", "b", "c"]).2 (0, "")
      = some (1, .fullAttrs ["a", "b", "c"]) ∧
    ∀ n ∈ ["a", "b", "c"], ∃ i,
      AttrDb.getAttr (AttrDb.setAttrs initialDb (0, "") ["a", "b", "c"]).2 (1, n)
        = some (i, .placeholder) :=
  C7_setAttrs_contract initialDb (0, "") ["a", "b", "c"]
    ⟨Nat.one_pos, by simp [initialDb]⟩ rfl (by decide) (by decide) (by decide)

/-- Witness for C9 at a concrete input: a store holding one row
(0, "x") = Misc (row 1); under the root-like cursor the name "q" misses,
"x" hits row 1, and "y" misses under row 1, so the walk along
["x", "y", "z"] stops after looking up exactly "x" and "y". -/
theorem C9_witness :
    Cursor.maybeGetAttr (some (AttrDb.setValue initialDb (0, "x") .misc).2)
        (Cursor.mk none (0, .fullAttrs [])) "q" = .ok none ∧
    Cursor.findAlongAttrPath (some (AttrDb.setValue initialDb (0, "x") .misc).2)
        (Cursor.mk none (0, .fullAttrs [])) ["x", "y", "z"] = .ok none ∧
    Cursor.findAlongAttrPathTrace (some (AttrDb.setValue initialDb (0, "x") .misc).2)
        (Cursor.mk none (0, .fullAttrs [])) ["x", "y", "z"]
      = .ok (none, ["x", "y"]) :=
  C9_missing_path_stops (AttrDb.setValue initialDb (0, "x") .misc).2
    (Cursor.mk none (0, .fullAttrs [])) "q" "x" "y" "z" 1 .misc
    (by decide) (by decide) (by decide)

end TreeCache
